import Mathlib

/-!
# Verification of the express-idempotency middleware

Shallow embedding of `src/index.js` (and the earlier single-engine revision in
`src/unnamed/part_000`) of the express-idempotency package.  The middleware
chain gates an HTTP request pipeline: a request carrying an `Idempotency-Key`
header is looked up in a cache (an in-process LRU cache or a remote Redis
store) and, on a hit, answered from the cache without invoking the downstream
pipeline; on a miss it is forwarded and its final response is stored under a
key derived from the request once the response completes.

The two library modules `lib/generate-cache-key` and `lib/cache-provider` are
required by `src/index.js` but their sources are not part of the analysed
tree; they are modelled from the specification (see the doc comments on
`generateCacheKey` and `LRUCache`).
-/

set_option autoImplicit false

namespace ExpressIdempotency

/-- An abstract HTTP request as the middleware observes it: method, path and
the optional `Idempotency-Key` header (`req.get('Idempotency-Key')`). -/
structure Request where
  method : String
  path : String
  idempotencyKey : Option String
  deriving Repr, DecidableEq

/-- The record stored in the cache by the store middleware:
`{ statusCode: res.statusCode, body: res.body, headers: res.headers }`. -/
structure StoredResponse where
  statusCode : Nat
  headers : List (String × String)
  body : String
  deriving Repr, DecidableEq

/-- The mutable response object `res`, restricted to the fields the
middleware reads and writes: status code, header map, body, and whether
`res.send` has been called. -/
structure Res where
  statusCode : Nat
  headers : List (String × String)
  body : String
  sent : Bool
  deriving Repr, DecidableEq

/-- A fresh response object before any middleware touches it. -/
def Res.init : Res := ⟨200, [], "", false⟩

/-- Read a header from a header map: the first binding of the name wins,
as for a JavaScript object key. -/
def getHeader (hs : List (String × String)) (n : String) : Option String :=
  (hs.find? (fun p => p.1 = n)).map Prod.snd

/-- `res.set(name, value)`: overwrite the binding of `name` if present,
otherwise append it. -/
def setHeader (hs : List (String × String)) (n v : String) : List (String × String) :=
  if hs.any (fun p => p.1 = n) then
    hs.map (fun p => if p.1 = n then (n, v) else p)
  else
    hs ++ [(n, v)]

/-- `res.set(headerObject)`: set every binding of the object in order. -/
def setHeaders (hs upd : List (String × String)) : List (String × String) :=
  upd.foldl (fun acc p => setHeader acc p.1 p.2) hs

/-- Modelled from the spec: `lib/generate-cache-key` is required by
`src/index.js` but is not among the analysed sources.  Per §4.1 the key
generator is a pure, deterministic, total function of the request method,
path and token, built by concatenating the components with a separator that
cannot appear in any component. -/
def generateCacheKey (req : Request) (token : String) : String :=
  req.method ++ "\n" ++ req.path ++ "\n" ++ token

/-- Modelled from the spec: `lib/cache-provider` is required by
`src/index.js` but is not among the analysed sources.  Per §3/§4.3 it is a
bounded in-process store with strict least-recently-used eviction: the
recency list is kept most-recent-first, a successful lookup refreshes
recency, and an insertion past capacity evicts the entry least recently
looked up (tie-break: earliest insertion). -/
structure LRUCache where
  capacity : Nat
  entries : List (String × StoredResponse)
  deriving Repr, DecidableEq

/-- The empty bounded store of a given capacity. -/
def LRUCache.empty (n : Nat) : LRUCache := ⟨n, []⟩

/-- `cache.get(key)`: return the stored record if present and move it to the
front of the recency list. -/
def LRUCache.get (c : LRUCache) (k : String) :
    Option StoredResponse × LRUCache :=
  match c.entries.find? (fun p => p.1 = k) with
  | none => (none, c)
  | some p =>
      (some p.2, ⟨c.capacity, (k, p.2) :: c.entries.filter (fun q => ¬ q.1 = k)⟩)

/-- `cache.set(key, value)`: insert at the front of the recency list,
dropping any previous binding of the key, and truncate to capacity (the
dropped tail is the least recently used entry). -/
def LRUCache.set (c : LRUCache) (k : String) (v : StoredResponse) : LRUCache :=
  ⟨c.capacity, ((k, v) :: c.entries.filter (fun q => ¬ q.1 = k)).take c.capacity⟩

/-- Whether a key is currently present in the store. -/
def LRUCache.contains (c : LRUCache) (k : String) : Bool :=
  c.entries.any (fun p => p.1 = k)

/-- The lookup result alone, without the recency update. -/
def LRUCache.peek (c : LRUCache) (k : String) : Option StoredResponse :=
  (c.entries.find? (fun p => p.1 = k)).map Prod.snd

/-- An operation against the bounded store, for stating invariants over
arbitrary operation sequences. -/
inductive CacheOp where
  | get (k : String)
  | set (k : String) (v : StoredResponse)
  deriving Repr, DecidableEq

/-- Run one operation. -/
def LRUCache.step (c : LRUCache) : CacheOp → LRUCache
  | .get k => (c.get k).2
  | .set k v => c.set k v

/-- Run a sequence of operations. -/
def LRUCache.run (c : LRUCache) (ops : List CacheOp) : LRUCache :=
  ops.foldl LRUCache.step c

/-- Instrumented middleware state: the cache plus a log of every key-derivation,
lookup and store call the gate makes, newest last. -/
structure GateState where
  cache : LRUCache
  keygenKeys : List String
  lookupKeys : List String
  storeKeys : List String
  deriving Repr, DecidableEq

/-- An instrumented state with no calls logged yet. -/
def GateState.init (c : LRUCache) : GateState := ⟨c, [], [], []⟩

/-- `checkInLRUCacheMw` (`src/index.js` lines 16–34; identical to `checkMw`
in the earlier revision): if the request has no `Idempotency-Key`, call
`next()`; otherwise look the derived key up in the cache; on a miss call
`next()`, on a hit reply with the stored status, the stored headers, an
`X-Cache: HIT` header and the stored body, without calling `next()`.
Returns `some res` when the middleware responded from cache (so `next` was
not invoked) and `none` when it called `next()`. -/
def checkInLRUCacheMw (req : Request) (res : Res) (s : GateState) :
    Option Res × GateState :=
  match req.idempotencyKey with
  | none => (none, s)
  | some idempotencyKey =>
      let cacheKey := generateCacheKey req idempotencyKey
      let r := s.cache.get cacheKey
      let s' : GateState :=
        ⟨r.2, s.keygenKeys ++ [cacheKey], s.lookupKeys ++ [cacheKey], s.storeKeys⟩
      match r.1 with
      | none => (none, s')
      | some storedResponse =>
          let res₁ := { res with statusCode := storedResponse.statusCode }
          let res₂ := { res₁ with headers := setHeaders res₁.headers storedResponse.headers }
          let res₃ := { res₂ with headers := setHeader res₂.headers "X-Cache" "HIT" }
          let res₄ := { res₃ with body := storedResponse.body, sent := true }
          (some res₄, s')

/-- The body of the `res.once('end', ...)` listener registered by
`storeInLRUCacheMw` (`src/index.js` lines 43–61; identical to `storeMw` in
the earlier revision): when the response has completed, if the request
carries an `Idempotency-Key`, capture `{statusCode, body, headers}` from the
response and store it under the derived key; otherwise do nothing. -/
def storeInLRUCacheOnEnd (req : Request) (res : Res) (s : GateState) : GateState :=
  match req.idempotencyKey with
  | none => s
  | some idempotencyKey =>
      let responseToStore : StoredResponse := ⟨res.statusCode, res.headers, res.body⟩
      let cacheKey := generateCacheKey req idempotencyKey
      ⟨s.cache.set cacheKey responseToStore,
        s.keygenKeys ++ [cacheKey], s.lookupKeys, s.storeKeys ++ [cacheKey]⟩

/-- The downstream pipeline's terminal behaviour for one request: either it
completes the response with a final status, headers and body (after which
`express-end` emits the one-shot `end` event), or it fails/terminates before
producing a final response (no `end` event is ever emitted). -/
inductive DownstreamOutcome where
  | completes (r : StoredResponse)
  | fails
  deriving Repr, DecidableEq

/-- How one gated request ends, as observed by the caller. -/
inductive RequestOutcome where
  | replayed (res : Res)
  | forwarded (res : Res)
  | aborted
  deriving Repr, DecidableEq

/-- One full pass of a request through the LRU middleware chain
(`expressEnd` then `checkInLRUCacheMw` then `storeInLRUCacheMw` then the
downstream pipeline).  Returns the request outcome, the final gate state and
the number of downstream invocations.  `storeInLRUCacheMw` registers its
one-shot `end` listener and calls `next()`: the listener body runs exactly
when the downstream pipeline completes the response. -/
def processRequest (req : Request) (down : DownstreamOutcome) (s : GateState) :
    RequestOutcome × GateState × Nat :=
  match checkInLRUCacheMw req Res.init s with
  | (some res, s') => (.replayed res, s', 0)
  | (none, s') =>
      match down with
      | .completes r =>
          let res : Res := ⟨r.statusCode, r.headers, r.body, true⟩
          (.forwarded res, storeInLRUCacheOnEnd req res s', 1)
      | .fails => (.aborted, s', 1)

/-- Two requests racing each other through the gate: the schedule runs both
check middlewares before either downstream completion fires, then delivers
the completions in order.  This is the critical interleaving of §5 — the
source has no claim/lock between lookup and store. -/
def processTwoConcurrently (req₁ req₂ : Request) (r₁ r₂ : StoredResponse)
    (s : GateState) : GateState × Nat :=
  let c₁ := checkInLRUCacheMw req₁ Res.init s
  let c₂ := checkInLRUCacheMw req₂ Res.init c₁.2
  let step₁ : GateState × Nat :=
    match c₁.1 with
    | some _ => (c₂.2, 0)
    | none => (storeInLRUCacheOnEnd req₁ ⟨r₁.statusCode, r₁.headers, r₁.body, true⟩ c₂.2, 1)
  let step₂ : GateState × Nat :=
    match c₂.1 with
    | some _ => (step₁.1, 0)
    | none => (storeInLRUCacheOnEnd req₂ ⟨r₂.statusCode, r₂.headers, r₂.body, true⟩ step₁.1, 1)
  (step₂.1, step₁.2 + step₂.2)

/-- An asynchronous Redis lookup: `client.getAsync(key)` either resolves to
the stored record (or nothing), or rejects with a backend error. -/
def RedisLookup : Type := String → Except Unit (Option StoredResponse)

/-- An asynchronous Redis store: `client.setAsync(key, value)` either
resolves or rejects with a backend error. -/
def RedisStore : Type := String → StoredResponse → Except Unit Unit

/-- How one gated request ends under the Redis engine.  `hung` is the fate
of a request whose `await client.getAsync(...)` rejects: the middleware's
async function aborts before calling `next()` or sending any response, so
the request neither forwards nor completes. -/
inductive RedisOutcome where
  | replayed (res : Res)
  | forwarded (res : Res) (stored : Bool)
  | hung
  | aborted
  deriving Repr, DecidableEq

/-- `checkInRedisMw` (`src/index.js` lines 69–91): without a token, call
`next()`; otherwise `await` the Redis lookup of the derived key — there is
no try/catch, so a rejected lookup aborts the middleware with neither
`next()` nor a response.  On a resolved miss call `next()`; on a resolved
hit reply with the stored status, headers, `X-Cache: HIT` and body.
`none` means `next()` was called; `some (some res)` means a cached reply was
sent; `some none` means the lookup rejected. -/
def checkInRedisMw (lookup : RedisLookup) (req : Request) (res : Res) :
    Option (Option Res) :=
  match req.idempotencyKey with
  | none => none
  | some idempotencyKey =>
      let cacheKey := generateCacheKey req idempotencyKey
      match lookup cacheKey with
      | .error _ => some none
      | .ok none => none
      | .ok (some storedResponse) =>
          let res₁ := { res with statusCode := storedResponse.statusCode }
          let res₂ := { res₁ with headers := setHeaders res₁.headers storedResponse.headers }
          let res₃ := { res₂ with headers := setHeader res₂.headers "X-Cache" "HIT" }
          let res₄ := { res₃ with body := storedResponse.body, sent := true }
          some (some res₄)

/-- One full pass of a request through the Redis middleware chain
(`src/index.js` lines 129–135, redis branch).  `storeInRedisMw`
(lines 93–115) registers an async one-shot `end` listener and calls
`next()`; the listener runs only after the response has completed, so a
rejected `setAsync` can no longer affect the response — the request is
already answered.  The `Bool` in `forwarded` records whether the store
succeeded. -/
def processRedisRequest (lookup : RedisLookup) (store : RedisStore)
    (req : Request) (down : DownstreamOutcome) : RedisOutcome :=
  match checkInRedisMw lookup req Res.init with
  | some (some res) => .replayed res
  | some none => .hung
  | none =>
      match down with
      | .completes r =>
          let res : Res := ⟨r.statusCode, r.headers, r.body, true⟩
          let stored :=
            match req.idempotencyKey with
            | none => false
            | some idempotencyKey =>
                let responseToStore : StoredResponse := ⟨res.statusCode, res.headers, res.body⟩
                let cacheKey := generateCacheKey req idempotencyKey
                match store cacheKey responseToStore with
                | .ok _ => true
                | .error _ => false
          (.forwarded res stored)
      | .fails => .aborted

/-- The options object passed to `idempotency`. -/
structure Options where
  cacheEngine : String
  deriving Repr, DecidableEq

/-- The middlewares `idempotency` can put on the returned chain. -/
inductive ChainMw where
  | expressEnd
  | checkInLRUCache
  | storeInLRUCache
  | checkInRedis
  | storeInRedis
  deriving Repr, DecidableEq

/-- `idempotency` (`src/index.js` lines 121–138): throw a `TypeError` unless
`options.cacheEngine` is `'lru'` or `'redis'`, then build the connect chain
`expressEnd`, check middleware, store middleware for the selected engine. -/
def idempotency (options : Options) : Except String (List ChainMw) :=
  if ¬ options.cacheEngine = "lru" ∧ ¬ options.cacheEngine = "redis" then
    .error ("Unknown cacheEngine " ++ options.cacheEngine ++
      ". Must be either \"lru\" or \"redis\".")
  else
    let chain := [ChainMw.expressEnd]
    let chain :=
      if options.cacheEngine = "lru" then
        chain ++ [ChainMw.checkInLRUCache, ChainMw.storeInLRUCache]
      else if options.cacheEngine = "redis" then
        chain ++ [ChainMw.checkInRedis, ChainMw.storeInRedis]
      else chain
    .ok chain

/-! ## Basic lemmas about the store and the middleware steps -/

theorem LRUCache.get_snd_of_fst_none (c : LRUCache) (k : String)
    (h : (c.get k).1 = none) : (c.get k).2 = c := by
  unfold LRUCache.get at h ⊢
  cases hf : c.entries.find? (fun p => p.1 = k)
  · simp [hf]
  · simp [hf] at h

theorem LRUCache.get_set_self_fst (c : LRUCache) (k : String) (v : StoredResponse)
    (h : 0 < c.capacity) : ((c.set k v).get k).1 = some v := by
  obtain ⟨m, hm⟩ : ∃ m, c.capacity = m + 1 :=
    ⟨c.capacity - 1, (Nat.succ_pred_eq_of_pos h).symm⟩
  unfold LRUCache.set LRUCache.get
  simp [hm]

theorem checkInLRUCacheMw_no_token (req : Request) (res : Res) (s : GateState)
    (h : req.idempotencyKey = none) : checkInLRUCacheMw req res s = (none, s) := by
  unfold checkInLRUCacheMw
  rw [h]

theorem checkInLRUCacheMw_miss (req : Request) (res : Res) (s : GateState) (tok : String)
    (htok : req.idempotencyKey = some tok)
    (hmiss : (s.cache.get (generateCacheKey req tok)).1 = none) :
    checkInLRUCacheMw req res s =
      (none, ⟨s.cache, s.keygenKeys ++ [generateCacheKey req tok],
        s.lookupKeys ++ [generateCacheKey req tok], s.storeKeys⟩) := by
  unfold checkInLRUCacheMw
  rw [htok]
  simp only [hmiss, LRUCache.get_snd_of_fst_none s.cache (generateCacheKey req tok) hmiss]

theorem checkInLRUCacheMw_hit (req : Request) (res : Res) (s : GateState) (tok : String)
    (sr : StoredResponse)
    (htok : req.idempotencyKey = some tok)
    (hhit : (s.cache.get (generateCacheKey req tok)).1 = some sr) :
    checkInLRUCacheMw req res s =
      (some ⟨sr.statusCode,
        setHeader (setHeaders res.headers sr.headers) "X-Cache" "HIT", sr.body, true⟩,
       ⟨(s.cache.get (generateCacheKey req tok)).2,
        s.keygenKeys ++ [generateCacheKey req tok],
        s.lookupKeys ++ [generateCacheKey req tok], s.storeKeys⟩) := by
  unfold checkInLRUCacheMw
  rw [htok]
  simp only [hhit]

theorem storeInLRUCacheOnEnd_no_token (req : Request) (res : Res) (s : GateState)
    (h : req.idempotencyKey = none) : storeInLRUCacheOnEnd req res s = s := by
  unfold storeInLRUCacheOnEnd
  rw [h]

theorem storeInLRUCacheOnEnd_token (req : Request) (res : Res) (s : GateState) (tok : String)
    (h : req.idempotencyKey = some tok) :
    storeInLRUCacheOnEnd req res s =
      ⟨s.cache.set (generateCacheKey req tok) ⟨res.statusCode, res.headers, res.body⟩,
       s.keygenKeys ++ [generateCacheKey req tok], s.lookupKeys,
       s.storeKeys ++ [generateCacheKey req tok]⟩ := by
  unfold storeInLRUCacheOnEnd
  rw [h]

theorem setHeader_of_not_mem (hs : List (String × String)) (n v : String)
    (h : n ∉ hs.map Prod.fst) : setHeader hs n v = hs ++ [(n, v)] := by
  have ha : hs.any (fun p => p.1 = n) = false := by
    simp only [List.any_eq_false, decide_eq_true_eq]
    intro p hp hpn
    exact h (List.mem_map.mpr ⟨p, hp, hpn⟩)
  unfold setHeader
  simp [ha]

theorem setHeaders_of_disjoint (hs upd : List (String × String))
    (hnd : (upd.map Prod.fst).Nodup)
    (hdisj : ∀ p ∈ upd, p.1 ∉ hs.map Prod.fst) :
    setHeaders hs upd = hs ++ upd := by
  induction upd generalizing hs with
  | nil => simp [setHeaders]
  | cons p rest ih =>
      have h₁ : p.1 ∉ hs.map Prod.fst := hdisj p (List.mem_cons_self p rest)
      have hnd' : (rest.map Prod.fst).Nodup := by
        simp only [List.map_cons, List.nodup_cons] at hnd
        exact hnd.2
      have hp₁ : p.1 ∉ rest.map Prod.fst := by
        simp only [List.map_cons, List.nodup_cons] at hnd
        exact hnd.1
      have step : setHeaders hs (p :: rest) = setHeaders (hs ++ [(p.1, p.2)]) rest := by
        simp only [setHeaders, List.foldl_cons, setHeader_of_not_mem hs p.1 p.2 h₁]
      have hdisj' : ∀ q ∈ rest, q.1 ∉ (hs ++ [(p.1, p.2)]).map Prod.fst := by
        intro q hq
        simp only [List.map_append, List.map_cons, List.map_nil, List.mem_append,
          List.mem_singleton]
        rintro (hq₁ | hq₂)
        · exact hdisj q (List.mem_cons_of_mem p hq) hq₁
        · exact hp₁ (hq₂ ▸ List.mem_map.mpr ⟨q, hq, rfl⟩)
      rw [step, ih (hs ++ [(p.1, p.2)]) hnd' hdisj']
      simp

theorem setHeaders_nil_left (upd : List (String × String))
    (hnd : (upd.map Prod.fst).Nodup) : setHeaders [] upd = upd := by
  simpa using setHeaders_of_disjoint [] upd hnd (by simp)

theorem find?_map_replace (hs : List (String × String)) (n v : String)
    (h : hs.any (fun p => p.1 = n) = true) :
    (hs.map (fun p => if p.1 = n then (n, v) else p)).find? (fun p => p.1 = n) =
      some (n, v) := by
  induction hs with
  | nil => simp at h
  | cons p rest ih =>
      by_cases hp : p.1 = n
      · simp [hp]
      · have h' : rest.any (fun q => q.1 = n) = true := by
          simpa [List.any_cons, hp] using h
        simp [hp, ih h']

theorem getHeader_setHeader_self (hs : List (String × String)) (n v : String) :
    getHeader (setHeader hs n v) n = some v := by
  unfold setHeader getHeader
  by_cases h : hs.any (fun p => p.1 = n) = true
  · rw [if_pos h, find?_map_replace hs n v h]
    rfl
  · rw [if_neg h]
    have hn : hs.find? (fun p => p.1 = n) = none := by
      rw [List.find?_eq_none]
      intro p hp hpn
      exact h (List.any_eq_true.mpr ⟨p, hp, hpn⟩)
    simp [List.find?_append, hn]

theorem find?_filter_key_ne (l : List (String × StoredResponse)) (k k' : String)
    (h : ¬ k' = k) :
    (l.filter (fun q => ¬ q.1 = k)).find? (fun p => p.1 = k') =
      l.find? (fun p => p.1 = k') := by
  induction l with
  | nil => rfl
  | cons p rest ih =>
      by_cases hp : p.1 = k
      · have h₁ : (p :: rest).filter (fun q => ¬ q.1 = k) =
            rest.filter (fun q => ¬ q.1 = k) :=
          List.filter_cons_of_neg (by simp [hp])
        have h₂ : (p :: rest).find? (fun q => q.1 = k') =
            rest.find? (fun q => q.1 = k') :=
          List.find?_cons_of_neg rest (by
            simp only [decide_eq_true_eq]
            exact fun hh => h (hh ▸ hp))
        rw [h₁, h₂, ih]
      · have h₁ : (p :: rest).filter (fun q => ¬ q.1 = k) =
            p :: rest.filter (fun q => ¬ q.1 = k) :=
          List.filter_cons_of_pos (by simp [hp])
        rw [h₁]
        by_cases hq : p.1 = k'
        · rw [List.find?_cons_of_pos _ (by simp [hq]),
            List.find?_cons_of_pos _ (by simp [hq])]
        · rw [List.find?_cons_of_neg _ (by simp [hq]),
            List.find?_cons_of_neg _ (by simp [hq]), ih]

theorem LRUCache.peek_get_snd (c : LRUCache) (k k' : String) :
    ((c.get k).2).peek k' = c.peek k' := by
  unfold LRUCache.get LRUCache.peek
  cases hf : c.entries.find? (fun p => p.1 = k) with
  | none => rfl
  | some p =>
      by_cases hk : k' = k
      · subst hk
        simp [hf]
      · show Option.map Prod.snd
            (((k, p.2) :: c.entries.filter (fun q => ¬ q.1 = k)).find?
              (fun q => q.1 = k')) =
          Option.map Prod.snd (c.entries.find? (fun q => q.1 = k'))
        have h₂ : ((k, p.2) :: c.entries.filter (fun q => ¬ q.1 = k)).find?
              (fun q => q.1 = k') =
            (c.entries.filter (fun q => ¬ q.1 = k)).find? (fun q => q.1 = k') :=
          List.find?_cons_of_neg _ (by
            simp only [decide_eq_true_eq]
            exact fun hh => hk hh.symm)
        rw [h₂, find?_filter_key_ne c.entries k k' hk]

theorem LRUCache.get_fst_eq_peek (c : LRUCache) (k : String) :
    (c.get k).1 = c.peek k := by
  unfold LRUCache.get LRUCache.peek
  cases hf : c.entries.find? (fun p => p.1 = k) <;> simp [hf]

theorem checkInLRUCacheMw_storeKeys (req : Request) (res : Res) (s : GateState) :
    (checkInLRUCacheMw req res s).2.storeKeys = s.storeKeys := by
  cases htok : req.idempotencyKey with
  | none => rw [checkInLRUCacheMw_no_token req res s htok]
  | some tok =>
      cases hr : (s.cache.get (generateCacheKey req tok)).1 with
      | none => rw [checkInLRUCacheMw_miss req res s tok htok hr]
      | some sr => rw [checkInLRUCacheMw_hit req res s tok sr htok hr]

theorem LRUCache.capacity_empty (n : Nat) : (LRUCache.empty n).capacity = n := rfl

theorem LRUCache.entries_set (c : LRUCache) (k : String) (v : StoredResponse) :
    (c.set k v).entries =
      ((k, v) :: c.entries.filter (fun q => ¬ q.1 = k)).take c.capacity := rfl

theorem LRUCache.capacity_step (c : LRUCache) (op : CacheOp) :
    (c.step op).capacity = c.capacity := by
  cases op with
  | get k =>
      show ((c.get k).2).capacity = c.capacity
      unfold LRUCache.get
      cases hf : c.entries.find? (fun p => p.1 = k) <;> rfl
  | set k v => rfl

theorem LRUCache.length_get_le (c : LRUCache) (k : String) :
    ((c.get k).2).entries.length ≤ c.entries.length := by
  unfold LRUCache.get
  cases hf : c.entries.find? (fun p => p.1 = k) with
  | none => exact Nat.le_refl _
  | some p =>
      show ((k, p.2) :: c.entries.filter (fun q => ¬ q.1 = k)).length ≤
        c.entries.length
      have hmem : p ∈ c.entries := List.mem_of_find?_eq_some hf
      have hpk : p.1 = k := by
        have h := List.find?_some hf
        simpa using h
      have hlt : (c.entries.filter (fun q => ¬ q.1 = k)).length <
          c.entries.length := by
        apply List.length_filter_lt_length_iff_exists.mpr
        exact ⟨p, hmem, by simp [hpk]⟩
      exact hlt

theorem LRUCache.length_set_le (c : LRUCache) (k : String) (v : StoredResponse) :
    (c.set k v).entries.length ≤ c.capacity := by
  rw [LRUCache.entries_set]
  exact List.length_take_le _ _

theorem LRUCache.step_length_le (c : LRUCache) (op : CacheOp)
    (h : c.entries.length ≤ c.capacity) :
    (c.step op).entries.length ≤ (c.step op).capacity := by
  rw [LRUCache.capacity_step]
  cases op with
  | get k => exact le_trans (LRUCache.length_get_le c k) h
  | set k v => exact LRUCache.length_set_le c k v

theorem LRUCache.run_length_le (ops : List CacheOp) (c : LRUCache)
    (h : c.entries.length ≤ c.capacity) :
    (c.run ops).entries.length ≤ (c.run ops).capacity := by
  induction ops generalizing c with
  | nil => exact h
  | cons op rest ih =>
      show ((c.step op).run rest).entries.length ≤ ((c.step op).run rest).capacity
      exact ih (c.step op) (LRUCache.step_length_le c op h)

theorem LRUCache.capacity_run (ops : List CacheOp) (c : LRUCache) :
    (c.run ops).capacity = c.capacity := by
  induction ops generalizing c with
  | nil => rfl
  | cons op rest ih =>
      show ((c.step op).run rest).capacity = c.capacity
      rw [ih (c.step op), LRUCache.capacity_step]

theorem take_cons_take {α : Type} (a : α) (l : List α) (n : Nat) :
    (a :: l.take n).take n = (a :: l).take n := by
  cases n with
  | zero => rfl
  | succ m =>
      rw [List.take_succ_cons, List.take_succ_cons, List.take_take,
        Nat.min_eq_left (Nat.le_succ m)]

theorem LRUCache.run_sets_entries (N : Nat) (v : StoredResponse) (ks : List String)
    (hnd : ks.Nodup) :
    ((LRUCache.empty N).run (ks.map (fun k => CacheOp.set k v))).entries =
      (ks.reverse.map (fun k => (k, v))).take N := by
  induction ks using List.reverseRecOn with
  | nil => simp [LRUCache.run, LRUCache.empty]
  | append_singleton ks k ih =>
      rw [List.nodup_append] at hnd
      have hk : k ∉ ks := fun hmem => hnd.2.2 hmem (by simp)
      have hstep : (LRUCache.empty N).run
            ((ks ++ [k]).map (fun k => CacheOp.set k v)) =
          ((LRUCache.empty N).run (ks.map (fun k => CacheOp.set k v))).set k v := by
        unfold LRUCache.run
        rw [List.map_append, List.foldl_append]
        rfl
      rw [hstep, LRUCache.entries_set, LRUCache.capacity_run, ih hnd.1]
      have hfilter : ((ks.reverse.map (fun k => (k, v))).take N).filter
          (fun q => ¬ q.1 = k) = (ks.reverse.map (fun k => (k, v))).take N := by
        rw [List.filter_eq_self]
        intro p hp
        obtain ⟨a, ha, rfl⟩ := List.mem_map.mp (List.mem_of_mem_take hp)
        simp only [decide_eq_true_eq]
        exact fun he => hk (he ▸ List.mem_reverse.mp ha)
      rw [hfilter, LRUCache.capacity_empty, take_cons_take]
      simp

/-! ## Claim theorems -/

/-- C4: a request without an idempotency token performs no cache operation at
all — no key computation, zero lookup calls, zero store calls, no capture —
forwards the request unconditionally (the downstream pipeline is invoked
exactly once) and leaves the gate state, the cache included, unchanged. -/
theorem c4_no_token_passthrough (req : Request) (d : DownstreamOutcome) (s : GateState)
    (h : req.idempotencyKey = none) :
    (processRequest req d s).2.1 = s ∧ (processRequest req d s).2.2 = 1 := by
  unfold processRequest
  rw [checkInLRUCacheMw_no_token req Res.init s h]
  cases d with
  | completes r => simp [storeInLRUCacheOnEnd_no_token req _ s h]
  | fails => exact ⟨rfl, rfl⟩

/-- Witness for `c4_no_token_passthrough` at a concrete token-less request. -/
theorem c4_no_token_passthrough_witness :
    (⟨"GET", "/users", none⟩ : Request).idempotencyKey = none
    ∧ ((processRequest ⟨"GET", "/users", none⟩ (.completes ⟨200, [], "ok"⟩)
          (GateState.init (LRUCache.empty 5))).2.1 = GateState.init (LRUCache.empty 5)
      ∧ (processRequest ⟨"GET", "/users", none⟩ (.completes ⟨200, [], "ok"⟩)
          (GateState.init (LRUCache.empty 5))).2.2 = 1) :=
  ⟨rfl, c4_no_token_passthrough ⟨"GET", "/users", none⟩ (.completes ⟨200, [], "ok"⟩)
    (GateState.init (LRUCache.empty 5)) rfl⟩

/-- C1: once a tokened request has been processed to completion with response
`X`, a second request with the same method, path and token is answered from
the cache: its response carries `X`'s status code, `X`'s headers with the one
additional header `X-Cache: HIT`, and `X`'s body, and the downstream pipeline
is not invoked for the replayed request (zero downstream invocations). -/
theorem c1_replay_equality (req₁ req₂ : Request) (tok : String) (X : StoredResponse)
    (s s₁ : GateState) (d : DownstreamOutcome)
    (h₁ : req₁.idempotencyKey = some tok) (h₂ : req₂.idempotencyKey = some tok)
    (hm : req₂.method = req₁.method) (hp : req₂.path = req₁.path)
    (hcap : 0 < s.cache.capacity)
    (hmiss : (s.cache.get (generateCacheKey req₁ tok)).1 = none)
    (hnd : (X.headers.map Prod.fst).Nodup)
    (hxc : "X-Cache" ∉ X.headers.map Prod.fst)
    (hs₁ : s₁ = (processRequest req₁ (.completes X) s).2.1) :
    (processRequest req₂ d s₁).1 =
      .replayed ⟨X.statusCode, X.headers ++ [("X-Cache", "HIT")], X.body, true⟩
    ∧ (processRequest req₂ d s₁).2.2 = 0 := by
  have hkey : generateCacheKey req₂ tok = generateCacheKey req₁ tok := by
    unfold generateCacheKey
    rw [hm, hp]
  have hrun₁ : processRequest req₁ (.completes X) s =
      (.forwarded ⟨X.statusCode, X.headers, X.body, true⟩,
        storeInLRUCacheOnEnd req₁ ⟨X.statusCode, X.headers, X.body, true⟩
          ⟨s.cache, s.keygenKeys ++ [generateCacheKey req₁ tok],
            s.lookupKeys ++ [generateCacheKey req₁ tok], s.storeKeys⟩, 1) := by
    unfold processRequest
    rw [checkInLRUCacheMw_miss req₁ Res.init s tok h₁ hmiss]
  have hc₁ : s₁.cache = s.cache.set (generateCacheKey req₁ tok) X := by
    rw [hs₁, hrun₁]
    show (storeInLRUCacheOnEnd req₁ ⟨X.statusCode, X.headers, X.body, true⟩
      ⟨s.cache, s.keygenKeys ++ [generateCacheKey req₁ tok],
        s.lookupKeys ++ [generateCacheKey req₁ tok], s.storeKeys⟩).cache = _
    rw [storeInLRUCacheOnEnd_token _ _ _ tok h₁]
  have hhit : (s₁.cache.get (generateCacheKey req₂ tok)).1 = some X := by
    rw [hkey, hc₁]
    exact LRUCache.get_set_self_fst s.cache _ X hcap
  unfold processRequest
  rw [checkInLRUCacheMw_hit req₂ Res.init s₁ tok X h₂ hhit]
  refine ⟨?_, rfl⟩
  show RequestOutcome.replayed ⟨X.statusCode,
      setHeader (setHeaders Res.init.headers X.headers) "X-Cache" "HIT", X.body, true⟩ =
    RequestOutcome.replayed ⟨X.statusCode, X.headers ++ [("X-Cache", "HIT")], X.body, true⟩
  rw [show Res.init.headers = ([] : List (String × String)) from rfl,
    setHeaders_nil_left X.headers hnd,
    setHeader_of_not_mem X.headers "X-Cache" "HIT" hxc]

/-- Witness for `c1_replay_equality`: a `POST /charge` request with token
`t1` completes with status 201 and is replayed with `X-Cache: HIT` while the
downstream pipeline stays idle. -/
theorem c1_replay_equality_witness :
    (processRequest ⟨"POST", "/charge", some "t1"⟩ .fails
        (processRequest ⟨"POST", "/charge", some "t1"⟩
          (.completes ⟨201, [("Content-Type", "text/plain")], "paid"⟩)
          (GateState.init (LRUCache.empty 3))).2.1).1 =
      .replayed ⟨201, [("Content-Type", "text/plain"), ("X-Cache", "HIT")], "paid", true⟩
    ∧ (processRequest ⟨"POST", "/charge", some "t1"⟩ .fails
        (processRequest ⟨"POST", "/charge", some "t1"⟩
          (.completes ⟨201, [("Content-Type", "text/plain")], "paid"⟩)
          (GateState.init (LRUCache.empty 3))).2.1).2.2 = 0 :=
  c1_replay_equality ⟨"POST", "/charge", some "t1"⟩ ⟨"POST", "/charge", some "t1"⟩ "t1"
    ⟨201, [("Content-Type", "text/plain")], "paid"⟩ (GateState.init (LRUCache.empty 3))
    _ .fails rfl rfl rfl rfl (by decide) rfl (by decide) (by decide) rfl

/-- C5: constructing the gate with a `cacheEngine` value other than `'lru'`
or `'redis'` fails immediately at construction time with a `TypeError`
(`InvalidConfiguration`): `idempotency` returns an error and no middleware
chain is ever built, so no request can be processed. -/
theorem c5_invalid_cache_engine_rejected (options : Options)
    (h₁ : ¬ options.cacheEngine = "lru") (h₂ : ¬ options.cacheEngine = "redis") :
    idempotency options =
      .error ("Unknown cacheEngine " ++ options.cacheEngine ++
        ". Must be either \"lru\" or \"redis\".") := by
  unfold idempotency
  rw [if_pos ⟨h₁, h₂⟩]

/-- Witness for `c5_invalid_cache_engine_rejected` at the concrete engine
string `"memcached"`. -/
theorem c5_invalid_cache_engine_rejected_witness :
    (¬ (⟨"memcached"⟩ : Options).cacheEngine = "lru")
    ∧ (¬ (⟨"memcached"⟩ : Options).cacheEngine = "redis")
    ∧ idempotency ⟨"memcached"⟩ =
        .error ("Unknown cacheEngine memcached. Must be either \"lru\" or \"redis\".") :=
  ⟨by decide, by decide,
    c5_invalid_cache_engine_rejected ⟨"memcached"⟩ (by decide) (by decide)⟩

/-- C6: for a request processed through lookup then store, the key under
which the captured response is stored equals the key computed at lookup:
the gate's lookup log and store log each gain exactly the key
`generateCacheKey req tok`, a pure, deterministic, total function of the
request and token, so the two keys coincide. -/
theorem c6_lookup_store_same_key (req : Request) (tok : String) (r : StoredResponse)
    (s : GateState)
    (htok : req.idempotencyKey = some tok)
    (hmiss : (s.cache.get (generateCacheKey req tok)).1 = none) :
    (processRequest req (.completes r) s).2.1.lookupKeys =
      s.lookupKeys ++ [generateCacheKey req tok]
    ∧ (processRequest req (.completes r) s).2.1.storeKeys =
      s.storeKeys ++ [generateCacheKey req tok] := by
  have hrun : processRequest req (.completes r) s =
      (.forwarded ⟨r.statusCode, r.headers, r.body, true⟩,
        storeInLRUCacheOnEnd req ⟨r.statusCode, r.headers, r.body, true⟩
          ⟨s.cache, s.keygenKeys ++ [generateCacheKey req tok],
            s.lookupKeys ++ [generateCacheKey req tok], s.storeKeys⟩, 1) := by
    unfold processRequest
    rw [checkInLRUCacheMw_miss req Res.init s tok htok hmiss]
  rw [hrun, storeInLRUCacheOnEnd_token _ _ _ tok htok]
  exact ⟨rfl, rfl⟩

/-- Witness for `c6_lookup_store_same_key` at a concrete `PUT` request. -/
theorem c6_lookup_store_same_key_witness :
    (processRequest ⟨"PUT", "/item", some "t6"⟩ (.completes ⟨204, [], ""⟩)
        (GateState.init (LRUCache.empty 2))).2.1.lookupKeys =
      [] ++ [generateCacheKey ⟨"PUT", "/item", some "t6"⟩ "t6"]
    ∧ (processRequest ⟨"PUT", "/item", some "t6"⟩ (.completes ⟨204, [], ""⟩)
        (GateState.init (LRUCache.empty 2))).2.1.storeKeys =
      [] ++ [generateCacheKey ⟨"PUT", "/item", some "t6"⟩ "t6"] :=
  c6_lookup_store_same_key ⟨"PUT", "/item", some "t6"⟩ "t6" ⟨204, [], ""⟩
    (GateState.init (LRUCache.empty 2)) rfl rfl

/-- C9: the store middleware filters nothing on status: any completed final
response — a 4xx/5xx error as much as a 2xx success — is stored under the
request's key and replayed on the next identical request with the same
status code and body and an `X-Cache: HIT` marker. -/
theorem c9_error_status_cached_and_replayed (req : Request) (tok : String) (code : Nat)
    (hdrs : List (String × String)) (body : String) (s s₁ : GateState)
    (d : DownstreamOutcome)
    (htok : req.idempotencyKey = some tok)
    (hcap : 0 < s.cache.capacity)
    (hmiss : (s.cache.get (generateCacheKey req tok)).1 = none)
    (hs₁ : s₁ = (processRequest req (.completes ⟨code, hdrs, body⟩) s).2.1) :
    s₁.cache.peek (generateCacheKey req tok) = some ⟨code, hdrs, body⟩
    ∧ ∃ res, (processRequest req d s₁).1 = .replayed res
        ∧ res.statusCode = code ∧ res.body = body
        ∧ getHeader res.headers "X-Cache" = some "HIT" := by
  have hrun : processRequest req (.completes ⟨code, hdrs, body⟩) s =
      (.forwarded ⟨code, hdrs, body, true⟩,
        storeInLRUCacheOnEnd req ⟨code, hdrs, body, true⟩
          ⟨s.cache, s.keygenKeys ++ [generateCacheKey req tok],
            s.lookupKeys ++ [generateCacheKey req tok], s.storeKeys⟩, 1) := by
    unfold processRequest
    rw [checkInLRUCacheMw_miss req Res.init s tok htok hmiss]
  have hc₁ : s₁.cache = s.cache.set (generateCacheKey req tok) ⟨code, hdrs, body⟩ := by
    rw [hs₁, hrun]
    show (storeInLRUCacheOnEnd req ⟨code, hdrs, body, true⟩
      ⟨s.cache, s.keygenKeys ++ [generateCacheKey req tok],
        s.lookupKeys ++ [generateCacheKey req tok], s.storeKeys⟩).cache = _
    rw [storeInLRUCacheOnEnd_token _ _ _ tok htok]
  have hhit : (s₁.cache.get (generateCacheKey req tok)).1 = some ⟨code, hdrs, body⟩ := by
    rw [hc₁]
    exact LRUCache.get_set_self_fst s.cache _ _ hcap
  constructor
  · rw [← LRUCache.get_fst_eq_peek, hhit]
  · unfold processRequest
    rw [checkInLRUCacheMw_hit req Res.init s₁ tok ⟨code, hdrs, body⟩ htok hhit]
    exact ⟨_, rfl, rfl, rfl, getHeader_setHeader_self _ "X-Cache" "HIT"⟩

/-- Witness for `c9_error_status_cached_and_replayed` at a completed 500
error response. -/
theorem c9_error_status_cached_and_replayed_witness :
    ((processRequest ⟨"POST", "/job", some "t9"⟩ (.completes ⟨500, [], "boom"⟩)
        (GateState.init (LRUCache.empty 2))).2.1).cache.peek
      (generateCacheKey ⟨"POST", "/job", some "t9"⟩ "t9") = some ⟨500, [], "boom"⟩
    ∧ ∃ res,
        (processRequest ⟨"POST", "/job", some "t9"⟩ .fails
          (processRequest ⟨"POST", "/job", some "t9"⟩ (.completes ⟨500, [], "boom"⟩)
            (GateState.init (LRUCache.empty 2))).2.1).1 = .replayed res
        ∧ res.statusCode = 500 ∧ res.body = "boom"
        ∧ getHeader res.headers "X-Cache" = some "HIT" :=
  c9_error_status_cached_and_replayed ⟨"POST", "/job", some "t9"⟩ "t9" 500 [] "boom"
    (GateState.init (LRUCache.empty 2)) _ .fails rfl (by decide) rfl rfl

/-- C10: serving a cached response never modifies the stored mapping: on a
hit the check middleware responds without calling `next`, so the store
middleware never registers its completion listener — the downstream count is
zero, no store call is logged, and every key still maps to exactly the
record it mapped to before (only LRU recency bookkeeping moves). -/
theorem c10_hit_leaves_cache_unchanged (req : Request) (tok : String)
    (r : StoredResponse) (s : GateState) (d : DownstreamOutcome)
    (htok : req.idempotencyKey = some tok)
    (hhit : (s.cache.get (generateCacheKey req tok)).1 = some r) :
    (∃ res, (processRequest req d s).1 = .replayed res)
    ∧ (processRequest req d s).2.2 = 0
    ∧ (processRequest req d s).2.1.storeKeys = s.storeKeys
    ∧ (processRequest req d s).2.1.cache.peek = s.cache.peek := by
  unfold processRequest
  rw [checkInLRUCacheMw_hit req Res.init s tok r htok hhit]
  refine ⟨⟨_, rfl⟩, rfl, rfl, ?_⟩
  funext k
  show ((s.cache.get (generateCacheKey req tok)).2).peek k = s.cache.peek k
  exact LRUCache.peek_get_snd s.cache _ k

/-- Witness for `c10_hit_leaves_cache_unchanged` on a pre-populated cache. -/
theorem c10_hit_leaves_cache_unchanged_witness :
    (∃ res,
      (processRequest ⟨"GET", "/a", some "t"⟩ .fails
        (GateState.init ⟨2, [("GET\n/a\nt", ⟨200, [], "ok"⟩)]⟩)).1 = .replayed res)
    ∧ (processRequest ⟨"GET", "/a", some "t"⟩ .fails
        (GateState.init ⟨2, [("GET\n/a\nt", ⟨200, [], "ok"⟩)]⟩)).2.2 = 0
    ∧ (processRequest ⟨"GET", "/a", some "t"⟩ .fails
        (GateState.init ⟨2, [("GET\n/a\nt", ⟨200, [], "ok"⟩)]⟩)).2.1.storeKeys = []
    ∧ (processRequest ⟨"GET", "/a", some "t"⟩ .fails
        (GateState.init ⟨2, [("GET\n/a\nt", ⟨200, [], "ok"⟩)]⟩)).2.1.cache.peek =
      (⟨2, [("GET\n/a\nt", ⟨200, [], "ok"⟩)]⟩ : LRUCache).peek :=
  c10_hit_leaves_cache_unchanged ⟨"GET", "/a", some "t"⟩ "t" ⟨200, [], "ok"⟩
    (GateState.init ⟨2, [("GET\n/a\nt", ⟨200, [], "ok"⟩)]⟩) .fails rfl (by decide)

/-- C8: for a gated request the capture-and-store step fires at most once
(the store log grows by at most one entry whatever the downstream outcome
is), and only on the downstream completion signal: when downstream fails
before producing a final response, the request aborts with nothing stored —
the cache is exactly as before and the request's key still misses, so an
identical retry is a fresh MISS. -/
theorem c8_store_at_most_once_and_not_on_failure (req : Request) (tok : String)
    (s : GateState) (d : DownstreamOutcome)
    (htok : req.idempotencyKey = some tok)
    (hmiss : (s.cache.get (generateCacheKey req tok)).1 = none) :
    (processRequest req d s).2.1.storeKeys.length ≤ s.storeKeys.length + 1
    ∧ (processRequest req .fails s).1 = .aborted
    ∧ (processRequest req .fails s).2.1.cache = s.cache
    ∧ (processRequest req .fails s).2.1.storeKeys = s.storeKeys
    ∧ ((processRequest req .fails s).2.1.cache.get (generateCacheKey req tok)).1 =
        none := by
  have hfail : processRequest req .fails s =
      (.aborted, ⟨s.cache, s.keygenKeys ++ [generateCacheKey req tok],
        s.lookupKeys ++ [generateCacheKey req tok], s.storeKeys⟩, 1) := by
    unfold processRequest
    rw [checkInLRUCacheMw_miss req Res.init s tok htok hmiss]
  refine ⟨?_, by rw [hfail], by rw [hfail], by rw [hfail], by rw [hfail]; exact hmiss⟩
  have hsk := checkInLRUCacheMw_storeKeys req Res.init s
  unfold processRequest
  cases hc : checkInLRUCacheMw req Res.init s with
  | mk o s' =>
      rw [hc] at hsk
      cases o with
      | some res => exact hsk ▸ Nat.le_succ _
      | none =>
          cases d with
          | fails => exact hsk ▸ Nat.le_succ _
          | completes r =>
              show (storeInLRUCacheOnEnd req ⟨r.statusCode, r.headers, r.body, true⟩
                s').storeKeys.length ≤ s.storeKeys.length + 1
              rw [storeInLRUCacheOnEnd_token _ _ _ tok htok]
              show (s'.storeKeys ++ [generateCacheKey req tok]).length ≤
                s.storeKeys.length + 1
              rw [List.length_append, hsk]
              exact Nat.le_refl _

/-- Witness for `c8_store_at_most_once_and_not_on_failure`: a downstream
failure leaves the gate state untouched and the retry key absent. -/
theorem c8_store_at_most_once_and_not_on_failure_witness :
    (processRequest ⟨"POST", "/pay", some "t8"⟩ .fails
        (GateState.init (LRUCache.empty 2))).2.1.storeKeys.length ≤ 0 + 1
    ∧ (processRequest ⟨"POST", "/pay", some "t8"⟩ .fails
        (GateState.init (LRUCache.empty 2))).1 = .aborted
    ∧ (processRequest ⟨"POST", "/pay", some "t8"⟩ .fails
        (GateState.init (LRUCache.empty 2))).2.1.cache = LRUCache.empty 2
    ∧ (processRequest ⟨"POST", "/pay", some "t8"⟩ .fails
        (GateState.init (LRUCache.empty 2))).2.1.storeKeys = []
    ∧ ((processRequest ⟨"POST", "/pay", some "t8"⟩ .fails
        (GateState.init (LRUCache.empty 2))).2.1.cache.get
          (generateCacheKey ⟨"POST", "/pay", some "t8"⟩ "t8")).1 = none :=
  c8_store_at_most_once_and_not_on_failure ⟨"POST", "/pay", some "t8"⟩ "t8"
    (GateState.init (LRUCache.empty 2)) .fails rfl rfl

/-- C2: the source has no in-flight claim between lookup and store, so two
requests with the same cache key racing each other — both check middlewares
run before either response completes — both observe a MISS and both are
forwarded: the downstream pipeline is invoked twice, where the claimed
protocol demands exactly one downstream invocation.  Evaluated here at two
concurrent `POST /pay` requests with token `t2` against an empty cache. -/
theorem c2_concurrent_duplicates_double_forward :
    (processTwoConcurrently ⟨"POST", "/pay", some "t2"⟩ ⟨"POST", "/pay", some "t2"⟩
      ⟨201, [], "a"⟩ ⟨201, [], "b"⟩ (GateState.init (LRUCache.empty 10))).2 = 2 := by
  rfl

/-- C3 counterexample: with the Redis engine, a failing lookup does not
degrade to passthrough — `checkInRedisMw` has no try/catch around
`await client.getAsync(...)`, so the rejected promise aborts the middleware
before it can call `next()` or send anything: at this concrete tokened
request the outcome is `hung`, the request is neither forwarded nor
completed, contradicting the claim that a backend failure never aborts the
request. -/
theorem c3_lookup_failure_not_forwarded :
    processRedisRequest (fun _ => .error ()) (fun _ _ => .ok ())
      ⟨"POST", "/pay", some "t3"⟩ (.completes ⟨200, [], "ok"⟩) = .hung := by
  rfl

/-- C3 amended: the degradation holds for the store half only.  When the
lookup resolves to a miss but the Redis store operation fails, the request
is still forwarded and completes with the downstream response unmodified —
in particular it is never marked `X-Cache: HIT` — because the store runs in
the `end` listener after the response has completed and its rejection is
confined there (`stored = false`). -/
theorem c3_store_failure_still_completes (lookup : RedisLookup) (store : RedisStore)
    (req : Request) (tok : String) (r : StoredResponse)
    (htok : req.idempotencyKey = some tok)
    (hlk : lookup (generateCacheKey req tok) = .ok none)
    (hst : store (generateCacheKey req tok) ⟨r.statusCode, r.headers, r.body⟩ =
      .error ()) :
    processRedisRequest lookup store req (.completes r) =
      .forwarded ⟨r.statusCode, r.headers, r.body, true⟩ false := by
  unfold processRedisRequest checkInRedisMw
  rw [htok]
  simp only [hlk, hst]

/-- Witness for `c3_store_failure_still_completes` with a store that always
fails. -/
theorem c3_store_failure_still_completes_witness :
    processRedisRequest (fun _ => .ok none) (fun _ _ => .error ())
      ⟨"POST", "/refund", some "t3w"⟩ (.completes ⟨502, [], "bad"⟩) =
      .forwarded ⟨502, [], "bad", true⟩ false :=
  c3_store_failure_still_completes (fun _ => .ok none) (fun _ _ => .error ())
    ⟨"POST", "/refund", some "t3w"⟩ "t3w" ⟨502, [], "bad"⟩ rfl rfl rfl

/-- C7: the bounded local store never holds more than its capacity `N`
after any sequence of get/set operations; and inserting `N + 1` distinct
keys into an empty store of capacity `N` leaves exactly `N` entries, the
evicted entry being the least-recently-looked-up one — here the first
inserted key `k₀`, never looked up and earliest inserted, is gone while all
`N` later keys are still present. -/
theorem c7_lru_capacity_and_eviction (N : Nat) (v : StoredResponse) (k₀ : String)
    (rest : List String) (ops : List CacheOp) (c : LRUCache)
    (hc : c.capacity = N) (hlen : c.entries.length ≤ N)
    (hnd : (k₀ :: rest).Nodup) (hrest : rest.length = N) :
    (c.run ops).entries.length ≤ N
    ∧ ((LRUCache.empty N).run
        ((k₀ :: rest).map (fun k => CacheOp.set k v))).entries.length = N
    ∧ ((LRUCache.empty N).run
        ((k₀ :: rest).map (fun k => CacheOp.set k v))).contains k₀ = false
    ∧ rest.all (fun k => ((LRUCache.empty N).run
        ((k₀ :: rest).map (fun k => CacheOp.set k v))).contains k) = true := by
  have hbound : (c.run ops).entries.length ≤ N := by
    have h₁ : c.entries.length ≤ c.capacity := by rw [hc]; exact hlen
    have h₂ := LRUCache.run_length_le ops c h₁
    rwa [LRUCache.capacity_run, hc] at h₂
  have hentries : ((LRUCache.empty N).run
      ((k₀ :: rest).map (fun k => CacheOp.set k v))).entries =
      rest.reverse.map (fun k => (k, v)) := by
    rw [LRUCache.run_sets_entries N v (k₀ :: rest) hnd, List.reverse_cons,
      List.map_append]
    exact List.take_left' (by simp [hrest])
  have hk₀ : k₀ ∉ rest := (List.nodup_cons.mp hnd).1
  refine ⟨hbound, ?_, ?_, ?_⟩
  · rw [hentries]
    simp [hrest]
  · unfold LRUCache.contains
    rw [hentries, List.any_eq_false]
    intro p hp
    obtain ⟨a, ha, rfl⟩ := List.mem_map.mp hp
    simp only [decide_eq_true_eq]
    exact fun he => hk₀ (he ▸ List.mem_reverse.mp ha)
  · rw [List.all_eq_true]
    intro k hk
    unfold LRUCache.contains
    rw [hentries, List.any_eq_true]
    exact ⟨(k, v), List.mem_map.mpr ⟨k, List.mem_reverse.mpr hk, rfl⟩, by simp⟩

/-- Witness for `c7_lru_capacity_and_eviction`: capacity 2, keys `a`, `b`,
`c` inserted in that order — `a` is evicted, `b` and `c` remain — and a
mixed operation sequence stays within the bound. -/
theorem c7_lru_capacity_and_eviction_witness :
    ((LRUCache.empty 2).run
      [CacheOp.set "p" ⟨200, [], "x"⟩, CacheOp.get "p",
        CacheOp.set "q" ⟨200, [], "x"⟩,
        CacheOp.set "r" ⟨200, [], "x"⟩]).entries.length ≤ 2
    ∧ ((LRUCache.empty 2).run
        (["a", "b", "c"].map (fun k => CacheOp.set k ⟨200, [], "x"⟩))).entries.length = 2
    ∧ ((LRUCache.empty 2).run
        (["a", "b", "c"].map (fun k => CacheOp.set k ⟨200, [], "x"⟩))).contains "a" = false
    ∧ ["b", "c"].all (fun k => ((LRUCache.empty 2).run
        (["a", "b", "c"].map (fun k => CacheOp.set k ⟨200, [], "x"⟩))).contains k) = true :=
  c7_lru_capacity_and_eviction 2 ⟨200, [], "x"⟩ "a" ["b", "c"]
    [CacheOp.set "p" ⟨200, [], "x"⟩, CacheOp.get "p",
      CacheOp.set "q" ⟨200, [], "x"⟩, CacheOp.set "r" ⟨200, [], "x"⟩]
    (LRUCache.empty 2) rfl (by decide) (by decide) rfl

end ExpressIdempotency
